import Mathlib

/-!
Verification development for the time-tracker client (src/src/App.js).

Modelling conventions:
* A JavaScript `Date` is modelled as its `getTime()` value: milliseconds since
  the Unix epoch (UTC), as an `Int`.
* The browser's local time zone is modelled as a fixed offset `off` in
  milliseconds east of UTC (no DST transitions): the local clock reading of an
  instant `t` is `t + off`.  Local-time accessors (`getFullYear`, `getDay`,
  `setHours(0,0,0,0)`, `setDate`, ...) are computed on `t + off`;
  `toISOString` is computed on `t` itself.
* `Int` division `/` and `%` are Euclidean division, which for the positive
  divisors used here (86400000, 7, 146097, ...) coincides with the
  floor-division semantics of the JavaScript computations being modelled.
-/

/-- Milliseconds in one civil day. -/
def dayMs : Int := 86400000

/-- JavaScript `Date.prototype.getDay` for a local-clock reading in ms:
day of week with 0 = Sunday ... 6 = Saturday.  The epoch day (1970-01-01)
was a Thursday (= 4). -/
def jsDow (localMs : Int) : Int := (localMs / dayMs + 4) % 7

/-- Model of `String.padStart(2, '0')` as used on month and day numbers. -/
def pad2 (n : Int) : String := if n < 10 then "0" ++ toString n else toString n

/-- A civil (proleptic Gregorian) calendar date. -/
structure CivilDate where
  year : Int
  month : Int
  day : Int
deriving DecidableEq, Repr

/-- Civil date of a day number (days since 1970-01-01); the standard
days-to-civil algorithm, matching what the JavaScript engine's local-time
accessors (`getFullYear`, `getMonth`, `getDate`) compute. -/
def civilFromDays (z0 : Int) : CivilDate :=
  let z := z0 + 719468
  let era := z / 146097
  let doe := z - era * 146097
  let yoe := (doe - doe / 1460 + doe / 36524 - doe / 146096) / 365
  let y := yoe + era * 400
  let doy := doe - (365 * yoe + yoe / 4 - yoe / 100)
  let mp := (5 * doy + 2) / 153
  let d := doy - (153 * mp + 2) / 5 + 1
  let m := if mp < 10 then mp + 3 else mp - 9
  ⟨if m ≤ 2 then y + 1 else y, m, d⟩

/-- Day number (days since 1970-01-01) of a civil date; inverse of
`civilFromDays`, used to model the JavaScript `Date` constructors that parse
calendar components back into an instant. -/
def daysFromCivil (yy mm dd : Int) : Int :=
  let y := if mm ≤ 2 then yy - 1 else yy
  let era := y / 400
  let yoe := y - era * 400
  let mp := if mm > 2 then mm - 3 else mm + 9
  let doy := (153 * mp + 2) / 5 + dd - 1
  let doe := yoe * 365 + yoe / 4 - yoe / 100 + doy
  era * 146097 + doe - 719468

/-- Model of `getLocalDateString` (App.js lines 10-15): formats the local calendar date
of a local-clock reading as `MM-DD-YYYY` (month and day padded to two
digits). -/
def getLocalDateString (localMs : Int) : String :=
  let c := civilFromDays (localMs / dayMs)
  pad2 c.month ++ "-" ++ pad2 c.day ++ "-" ++ toString c.year

/-- Model of `new Date(s)` applied to a `MM-DD-YYYY` string produced by
`getLocalDateString`: the engine parses it as local midnight of that date.
We return the local-clock reading (days × dayMs); the constant UTC shift by
the zone offset does not affect any of the order comparisons this value is
used for. -/
def parseLocalDateMs (s : String) : Int :=
  match s.splitOn "-" with
  | [mm, dd, yyyy] =>
      daysFromCivil ((yyyy.toNat?.getD 0 : Nat) : Int)
        ((mm.toNat?.getD 0 : Nat) : Int) ((dd.toNat?.getD 0 : Nat) : Int) * dayMs
  | _ => 0

/-- Model of `new Date(s)` applied to a `YYYY-MM` month key: parsed as the first of the
month; only used as a sort key. -/
def parseMonthKeyMs (s : String) : Int :=
  match s.splitOn "-" with
  | [yyyy, mm] =>
      daysFromCivil ((yyyy.toNat?.getD 0 : Nat) : Int)
        ((mm.toNat?.getD 0 : Nat) : Int) 1 * dayMs
  | _ => 0

/-- A fetched time entry (App.js lines 101-108): `clockInTime` and
`clockOutTime` are `Date` objects or null, `date` is the stored derived
local-date string, `notes` free text. -/
structure TimeEntry where
  id : String
  projectId : String
  clockInTime : Option Int
  clockOutTime : Option Int
  date : String
  notes : String
deriving DecidableEq, Repr

/-- Model of `calculateEntryDuration` (App.js lines 999-1004): elapsed ms between
clock-in and clock-out when both are present (Date objects are truthy),
otherwise 0. -/
def calculateEntryDuration (e : TimeEntry) : Int :=
  match e.clockInTime, e.clockOutTime with
  | some tin, some tout => tout - tin
  | _, _ => 0

/-- Model of `calculateDailyTotalAllProjects` (App.js lines 395-403): filter the whole
entry collection by the stored `date` field, then fold summing the clock-out
minus clock-in difference of entries that have both instants. -/
def calculateDailyTotalAllProjects (entries : List TimeEntry) (dateString : String) : Int :=
  (entries.filter (fun e => e.date == dateString)).foldl
    (fun sum e =>
      match e.clockInTime, e.clockOutTime with
      | some tin, some tout => sum + (tout - tin)
      | _, _ => sum) 0

/-- The week key computed in `calculateWeeklyTotalsAllProjects` (App.js lines
409-414), as a UTC day number: take the clock-in's local Monday (local
day-of-month moved back by `(getDay()+6)%7` days, time-of-day zeroed in local
time), then `toISOString().split('T')[0]` renders the *UTC* civil date of that
instant; the string is in bijection with the UTC day number returned here. -/
def weekKeyDay (off tin : Int) : Int :=
  let localMs := tin + off
  let startOfWeekLocal := (localMs / dayMs - (jsDow localMs + 6) % 7) * dayMs
  (startOfWeekLocal - off) / dayMs

/-- Model of `weeklyData[weekKey] += duration` and `monthlyData[monthKey] += duration`
(App.js lines 416-420, 438-441): JavaScript object update, keys kept in
first-insertion order. -/
def addDur {K : Type} [BEq K] (k : K) (v : Int) (acc : List (K × Int)) : List (K × Int) :=
  if acc.any (fun p => p.1 == k) then
    acc.map (fun p => if p.1 == k then (p.1, p.2 + v) else p)
  else acc ++ [(k, v)]

/-- Model of `calculateWeeklyTotalsAllProjects` (App.js lines 405-428): bucket
completed entries by week key, then sort descending by the parsed week date
(the key's UTC day number). -/
def calculateWeeklyTotalsAllProjects (off : Int) (entries : List TimeEntry) :
    List (Int × Int) :=
  (entries.foldl
    (fun acc e =>
      match e.clockInTime, e.clockOutTime with
      | some tin, some tout => addDur (weekKeyDay off tin) (tout - tin) acc
      | _, _ => acc) []).insertionSort (fun a b => b.1 ≤ a.1)

/-- The `YYYY-MM` month key of a clock-in instant, from its local calendar
date (App.js lines 434-437). -/
def monthKeyOf (off tin : Int) : String :=
  let c := civilFromDays ((tin + off) / dayMs)
  toString c.year ++ "-" ++ pad2 c.month

/-- Model of `calculateMonthlyTotalsAllProjects` (App.js lines 430-450): bucket
completed entries by `YYYY-MM` local month key, sort descending by parsed
month. -/
def calculateMonthlyTotalsAllProjects (off : Int) (entries : List TimeEntry) :
    List (String × Int) :=
  (entries.foldl
    (fun acc e =>
      match e.clockInTime, e.clockOutTime with
      | some tin, some tout => addDur (monthKeyOf off tin) (tout - tin) acc
      | _, _ => acc) []).insertionSort
    (fun a b => parseMonthKeyMs b.1 ≤ parseMonthKeyMs a.1)

/-- The date key used by `groupedEntries` (App.js line 1007):
`getLocalDateString(entry.clockInTime)`, i.e. recomputed from the clock-in
instant (fetched entries always carry a clock-in instant; the default for a
missing one is irrelevant to every statement below). -/
def entryDateKey (off : Int) (e : TimeEntry) : String :=
  getLocalDateString (e.clockInTime.getD 0 + off)

/-- Model of `acc[dateKey].push(entry)` with key creation (App.js lines 1006-1013):
JavaScript object of arrays, keys in first-insertion order. -/
def pushGrouped (k : String) (e : TimeEntry) (acc : List (String × List TimeEntry)) :
    List (String × List TimeEntry) :=
  if acc.any (fun p => p.1 == k) then
    acc.map (fun p => if p.1 == k then (p.1, p.2 ++ [e]) else p)
  else acc ++ [(k, [e])]

/-- Model of `groupedEntries` (App.js lines 1006-1013): reduce the (project-filtered)
entry list into buckets keyed by the recomputed local date of the clock-in. -/
def groupedEntries (off : Int) (entries : List TimeEntry) :
    List (String × List TimeEntry) :=
  entries.foldl (fun acc e => pushGrouped (entryDateKey off e) e acc) []

/-- Model of `dailyTotals` (App.js lines 1015-1019): per date key, sum
`calculateEntryDuration` over the bucket; sort descending by parsed date. -/
def dailyTotals (off : Int) (entries : List TimeEntry) : List (String × Int) :=
  ((groupedEntries off entries).map
    (fun p => (p.1, (p.2.map calculateEntryDuration).sum))).insertionSort
    (fun a b => parseLocalDateMs b.1 ≤ parseLocalDateMs a.1)

/-- Model of `lastEntryForThisProject` in the clock-state derivation effect (App.js
lines 848-869): the first entry of the project whose `clockOutTime` is null
(`find` on the project-filtered list) — the spec's `CurrentOpenEntry`. -/
def currentOpenEntry (entries : List TimeEntry) (pid : String) : Option TimeEntry :=
  (entries.filter (fun e => e.projectId == pid)).find? (fun e => e.clockOutTime.isNone)

/-- The derived `clockedIn` flag (App.js lines 861-868): true exactly when an
open entry was found. -/
def clockedInState (entries : List TimeEntry) (pid : String) : Bool :=
  (currentOpenEntry entries pid).isSome

/-- Model of `handleClockIn` (App.js lines 872-900): reject with a modal message when
the derived state is clocked-in, otherwise add a new entry with null
clock-out.  Result: the store after the call, and the modal message shown
(`newId` models the document id generated by the store). -/
def handleClockIn (off : Int) (entries : List TimeEntry) (pid : String)
    (now : Int) (newId : String) : List TimeEntry × String :=
  if clockedInState entries pid then
    (entries, "You are already clocked in for this project.")
  else
    (entries ++ [{ id := newId, projectId := pid, clockInTime := some now,
                   clockOutTime := none, date := getLocalDateString (now + off),
                   notes := "" }],
     "Clocked in successfully!")

/-- Model of `handleUpdateTimeEntry` (App.js lines 951-987): `clockInInput` /
`clockOutInput` model the parsed `datetime-local` fields (`none` = empty
string, falsy).  Empty clock-in and clock-out-before-clock-in are rejected
before the store update; otherwise the matching entry is rewritten with the
new instants, the date recomputed from the new clock-in's local date, and
trimmed notes.  Result: the store after the call and the modal message. -/
def handleUpdateTimeEntry (off : Int) (store : List TimeEntry) (entryId : String)
    (clockInInput : Option Int) (clockOutInput : Option Int) (notesInput : String) :
    List TimeEntry × String :=
  match clockInInput with
  | none => (store, "Clock-in time cannot be empty.")
  | some tin =>
    if (match clockOutInput with | some tout => decide (tout < tin) | none => false) then
      (store, "Clock-out time cannot be before clock-in time.")
    else
      (store.map (fun e =>
        if e.id == entryId then
          { e with clockInTime := some tin, clockOutTime := clockOutInput,
                   date := getLocalDateString (tin + off), notes := notesInput.trim }
        else e),
       "Time entry updated successfully!")

/-- The Monday-00:00 local week start of a reference instant, as a UTC
instant (`startOfWeek.getTime()` in `getSelectedWeekTotal`, App.js lines
1068-1071). -/
def mondayStartUtc (off r : Int) : Int :=
  let localRef := r + off
  (localRef / dayMs - (jsDow localRef + 6) % 7) * dayMs - off

/-- Model of `getSelectedWeekTotal` (App.js lines 1063-1087): fold over the project's
entries, adding the duration of completed entries whose clock-in instant lies
in `[startOfWeek, startOfWeek + 7 days)`. -/
def getSelectedWeekTotal (off : Int) (entries : List TimeEntry) (pid : String)
    (r : Int) : Int :=
  let startUtc := mondayStartUtc off r
  let endUtc := startUtc + 7 * dayMs
  (entries.filter (fun e => e.projectId == pid)).foldl
    (fun sum e =>
      match e.clockInTime, e.clockOutTime with
      | some tin, some tout =>
          if startUtc ≤ tin ∧ tin < endUtc then sum + (tout - tin) else sum
      | _, _ => sum) 0

/-- The spec's `RangeTotal(entries, projectId, start, start + 7 days)`, stated
from the spec's words for comparison with `getSelectedWeekTotal`: sum of
Duration over the project's entries whose clock-in instant falls in the
half-open window. -/
def specWeekWindowTotal (entries : List TimeEntry) (pid : String) (startUtc : Int) : Int :=
  ((entries.filter (fun e =>
      e.projectId == pid &&
      (match e.clockInTime with
       | some t => decide (startUtc ≤ t ∧ t < startUtc + 7 * dayMs)
       | none => false))).map calculateEntryDuration).sum

/-- Model of `getSelectedMonthTotal` (App.js lines 1090-1111): like the week total but
over `[first of the reference's local month, first of the next month)`. -/
def getSelectedMonthTotal (off : Int) (entries : List TimeEntry) (pid : String)
    (r : Int) : Int :=
  let c := civilFromDays ((r + off) / dayMs)
  let startUtc := daysFromCivil c.year c.month 1 * dayMs - off
  let endUtc :=
    (if c.month = 12 then daysFromCivil (c.year + 1) 1 1
     else daysFromCivil c.year (c.month + 1) 1) * dayMs - off
  (entries.filter (fun e => e.projectId == pid)).foldl
    (fun sum e =>
      match e.clockInTime, e.clockOutTime with
      | some tin, some tout =>
          if startUtc ≤ tin ∧ tin < endUtc then sum + (tout - tin) else sum
      | _, _ => sum) 0

/-- The calendar cell daily total (App.js lines 1187-1188): entries matched by
stored `date` field and project id, summed with `calculateEntryDuration`. -/
def calendarDailyTotal (entries : List TimeEntry) (pid : String) (dateString : String) : Int :=
  ((entries.filter (fun e => e.date == dateString && e.projectId == pid)).map
    calculateEntryDuration).sum

/-- Total duration over all buckets of a grouped-entries accumulator; the
quantity preserved by the grouping fold (proof support for the partition
property). -/
def bucketsDurSum (acc : List (String × List TimeEntry)) : Int :=
  (acc.map (fun p => (p.2.map calculateEntryDuration).sum)).sum

/-- Day number of 2024-01-15 (a Monday), used by the concrete scenarios. -/
def day20240115 : Int := 19737

/-- Scenario entry: clock-in 2024-01-15T23:50 local, clock-out
2024-01-16T00:10 local (zone offset 0). -/
def entryC5 : TimeEntry :=
  { id := "e5", projectId := "p",
    clockInTime := some (day20240115 * dayMs + 85800000),
    clockOutTime := some (day20240115 * dayMs + 87000000),
    date := "01-15-2024", notes := "" }

/-- Scenario entry: 2024-01-15, 09:00-10:30 local. -/
def entryC6a : TimeEntry :=
  { id := "e6a", projectId := "p",
    clockInTime := some (day20240115 * dayMs + 32400000),
    clockOutTime := some (day20240115 * dayMs + 37800000),
    date := "01-15-2024", notes := "" }

/-- Scenario entry: 2024-01-15, 14:00-15:00 local. -/
def entryC6b : TimeEntry :=
  { id := "e6b", projectId := "p",
    clockInTime := some (day20240115 * dayMs + 50400000),
    clockOutTime := some (day20240115 * dayMs + 54000000),
    date := "01-15-2024", notes := "" }

/-- Entry clocking in Monday 2024-01-15 12:00 local in a UTC+1 zone
(clock-in instant 11:00 UTC), 20 minutes long. -/
def entryC1 : TimeEntry :=
  { id := "e1", projectId := "p",
    clockInTime := some (day20240115 * dayMs + 39600000),
    clockOutTime := some (day20240115 * dayMs + 40800000),
    date := "01-15-2024", notes := "" }

/-- Entry whose stored `date` field ("01-20-2024") disagrees with the local
date of its clock-in instant (2024-01-15, 09:00-10:00 local, offset 0). -/
def entryC10 : TimeEntry :=
  { id := "ex", projectId := "p",
    clockInTime := some (day20240115 * dayMs + 32400000),
    clockOutTime := some (day20240115 * dayMs + 36000000),
    date := "01-20-2024", notes := "" }

/-- Completed entry 09:00-10:00 for the clock-state scenario. -/
def entryC8closed : TimeEntry :=
  { id := "e8a", projectId := "p",
    clockInTime := some (day20240115 * dayMs + 32400000),
    clockOutTime := some (day20240115 * dayMs + 36000000),
    date := "01-15-2024", notes := "" }

/-- Open entry (clock-in 11:00, clock-out null) for the clock-state
scenario. -/
def entryC8open : TimeEntry :=
  { id := "e8b", projectId := "p",
    clockInTime := some (day20240115 * dayMs + 39600000),
    clockOutTime := none,
    date := "01-15-2024", notes := "" }

/-- A second open entry (consistency-violation scenario). -/
def entryC8open2 : TimeEntry :=
  { id := "e8c", projectId := "p",
    clockInTime := some (day20240115 * dayMs + 43200000),
    clockOutTime := none,
    date := "01-15-2024", notes := "" }

/-! ### Shared lemmas -/

theorem foldl_add_of_step (g : TimeEntry → Int) (step : Int → TimeEntry → Int)
    (hstep : ∀ a e, step a e = a + g e) :
    ∀ (l : List TimeEntry) (a : Int), l.foldl step a = a + (l.map g).sum := by
  intro l
  induction l with
  | nil => intro a; simp
  | cons e t ih =>
      intro a
      rw [List.foldl_cons, hstep, ih]
      simp [add_assoc]

theorem sum_map_filter_if (B : TimeEntry → Bool) (g : TimeEntry → Int) :
    ∀ l : List TimeEntry,
      ((l.filter B).map g).sum = (l.map fun e => if B e then g e else 0).sum := by
  intro l
  induction l with
  | nil => rfl
  | cons e t ih => by_cases h : B e <;> simp [List.filter_cons, h, ih]

theorem calculateEntryDuration_of_open (e : TimeEntry) (h : e.clockOutTime = none) :
    calculateEntryDuration e = 0 := by
  rcases h1 : e.clockInTime with _ | tin <;> simp [calculateEntryDuration, h1, h]

/-! ### Claims -/

/-- C3: an edit setting a clock-out instant strictly earlier than the clock-in
instant is rejected with the validation message and the store is returned
unchanged — no update is issued, nothing is clamped or partially written. -/
theorem claim_C3 (off : Int) (store : List TimeEntry) (entryId : String)
    (tin tout : Int) (notesInput : String) (h : tout < tin) :
    handleUpdateTimeEntry off store entryId (some tin) (some tout) notesInput =
      (store, "Clock-out time cannot be before clock-in time.") := by
  simp [handleUpdateTimeEntry, h]

theorem claim_C3_witness :
    handleUpdateTimeEntry 0 [entryC6a] "e6a" (some 100) (some 50) "note" =
      ([entryC6a], "Clock-out time cannot be before clock-in time.") :=
  claim_C3 0 [entryC6a] "e6a" 100 50 "note" (by decide)

/-- C5 counterexample: the derived date string of the 23:50-to-00:10 scenario
entry is not "2024-01-15" as claimed — `getLocalDateString` formats the local
date as `MM-DD-YYYY`, so the derived key is "01-15-2024". -/
theorem claim_C5_counterexample : ¬ (entryDateKey 0 entryC5 = "2024-01-15") := by
  decide

/-- C5 (amended): the entry's derived date string is "01-15-2024" — the
clock-in's local calendar date in the `MM-DD-YYYY` format of
`getLocalDateString` — its duration is 1200000 ms (20 minutes), and the whole
duration is attributed to the "01-15-2024" daily-total bucket. -/
theorem claim_C5 :
    entryDateKey 0 entryC5 = "01-15-2024" ∧
    calculateEntryDuration entryC5 = 1200000 ∧
    dailyTotals 0 [entryC5] = [("01-15-2024", 1200000)] := by
  decide

/-- C6 counterexample: for the 09:00-10:30 and 14:00-15:00 entries the daily
total of their shared date is 9000000 ms (2.5 hours), not the claimed
7200000 ms. -/
theorem claim_C6_counterexample :
    dailyTotals 0 [entryC6a, entryC6b] = [("01-15-2024", 9000000)] ∧
    (9000000 : Int) ≠ 7200000 := by
  decide

/-- C6 (amended): for two entries on the same local date spanning 09:00-10:30
and 14:00-15:00, the daily total for that date is 1.5 h + 1 h = 2.5 hours
(9000000 ms). -/
theorem claim_C6 :
    dailyTotals 0 [entryC6a, entryC6b] = [("01-15-2024", 9000000)] ∧
    calculateDailyTotalAllProjects [entryC6a, entryC6b] "01-15-2024" = 9000000 := by
  decide

/-- C1 (code bug evidence): in a zone east of UTC (offset +1 h) the week
bucket key is not a Monday.  `entryC1` clocks in on local Monday 2024-01-15
(`jsDow` of its local reading is 1 = Monday), yet the weekly computation keys
its bucket by day 19736 = 2024-01-14, whose day-of-week is 0 = Sunday: the
key is produced by `toISOString()` (a UTC date slice) applied to local Monday
midnight, which falls on the previous UTC day for positive offsets. -/
theorem claim_C1 :
    calculateWeeklyTotalsAllProjects 3600000 [entryC1] = [(19736, 1200000)] ∧
    jsDow (entryC1.clockInTime.getD 0 + 3600000) = 1 ∧
    jsDow (19736 * dayMs) = 0 := by
  decide

theorem foldl_append_skip {α : Type} (step : α → TimeEntry → α) (e : TimeEntry)
    (hskip : ∀ a, step a e = a) (l1 l2 : List TimeEntry) (a : α) :
    (l1 ++ e :: l2).foldl step a = (l1 ++ l2).foldl step a := by
  simp [List.foldl_append, List.foldl_cons, hskip]

theorem filter_foldl_skip {α : Type} (p : TimeEntry → Bool) (step : α → TimeEntry → α)
    (e : TimeEntry) (hskip : ∀ a, step a e = a) (pre post : List TimeEntry) (a : α) :
    ((pre ++ e :: post).filter p).foldl step a = ((pre ++ post).filter p).foldl step a := by
  rw [List.filter_append, List.filter_append, List.filter_cons]
  by_cases hp : p e = true
  · rw [if_pos hp]
    exact foldl_append_skip step e hskip _ _ a
  · rw [if_neg hp]

/-- C4: clock-in is rejected with the modal message, with the store returned
unchanged (so the existing open entry is untouched and nothing is created),
exactly when an open entry for the project exists; otherwise it appends a
single new entry whose clock-out is null. -/
theorem claim_C4 (off : Int) (entries : List TimeEntry) (pid : String)
    (now : Int) (newId : String) :
    ((∃ e ∈ entries, e.projectId = pid ∧ e.clockOutTime = none) →
      handleClockIn off entries pid now newId =
        (entries, "You are already clocked in for this project.")) ∧
    ((∀ e ∈ entries, e.projectId = pid → e.clockOutTime ≠ none) →
      handleClockIn off entries pid now newId =
        (entries ++ [{ id := newId, projectId := pid, clockInTime := some now,
                       clockOutTime := none, date := getLocalDateString (now + off),
                       notes := "" }],
         "Clocked in successfully!")) := by
  constructor
  · rintro ⟨e, he, hpid, hout⟩
    have hstate : clockedInState entries pid = true := by
      simp only [clockedInState, currentOpenEntry, List.find?_isSome]
      exact ⟨e, List.mem_filter.mpr ⟨he, by simp [hpid]⟩, by simp [hout]⟩
    simp [handleClockIn, hstate]
  · intro h
    have hnot : ¬ (clockedInState entries pid = true) := by
      simp only [clockedInState, currentOpenEntry, List.find?_isSome]
      rintro ⟨e, hef, hopen⟩
      rcases List.mem_filter.mp hef with ⟨he, hp⟩
      exact h e he (by simpa using hp)
        (by simpa [Option.isNone_iff_eq_none] using hopen)
    have hstate : clockedInState entries pid = false := by
      cases hb : clockedInState entries pid
      · rfl
      · exact absurd hb hnot
    simp [handleClockIn, hstate]

theorem claim_C4_witness :
    handleClockIn 0 [entryC8open] "p" (day20240115 * dayMs + 46800000) "n1" =
      ([entryC8open], "You are already clocked in for this project.") ∧
    handleClockIn 0 [entryC8closed] "p" (day20240115 * dayMs + 46800000) "n2" =
      ([entryC8closed,
        { id := "n2", projectId := "p",
          clockInTime := some (day20240115 * dayMs + 46800000),
          clockOutTime := none,
          date := getLocalDateString (day20240115 * dayMs + 46800000 + 0),
          notes := "" }],
       "Clocked in successfully!") :=
  ⟨(claim_C4 0 [entryC8open] "p" (day20240115 * dayMs + 46800000) "n1").1
      ⟨entryC8open, by simp, rfl, rfl⟩,
   (claim_C4 0 [entryC8closed] "p" (day20240115 * dayMs + 46800000) "n2").2 (by decide)⟩

/-- C8: `currentOpenEntry` returns the first encountered entry of the project
with null clock-out (so any result belongs to the project and is open, and a
`none` result means no open entry exists); on the scenario
`[09:00-10:00, 11:00-open]` it returns the second entry and the derived state
is clocked-in; with two open entries the first encountered is returned and the
collection is not corrected. -/
theorem claim_C8 :
    (∀ (entries : List TimeEntry) (pid : String) (e : TimeEntry),
        currentOpenEntry entries pid = some e →
        e ∈ entries ∧ e.projectId = pid ∧ e.clockOutTime = none) ∧
    (∀ (entries : List TimeEntry) (pid : String),
        currentOpenEntry entries pid = none →
        ∀ e ∈ entries, e.projectId = pid → e.clockOutTime ≠ none) ∧
    currentOpenEntry [entryC8closed, entryC8open] "p" = some entryC8open ∧
    clockedInState [entryC8closed, entryC8open] "p" = true ∧
    currentOpenEntry [entryC8open, entryC8open2] "p" = some entryC8open := by
  refine ⟨?_, ?_, by decide, by decide, by decide⟩
  · intro entries pid e hfind
    have hmem := List.mem_of_find?_eq_some hfind
    have hpred := List.find?_some hfind
    rcases List.mem_filter.mp hmem with ⟨he, hp⟩
    exact ⟨he, by simpa using hp, by simpa [Option.isNone_iff_eq_none] using hpred⟩
  · intro entries pid hnone e he hpid
    have hx := List.find?_eq_none.mp hnone e (List.mem_filter.mpr ⟨he, by simp [hpid]⟩)
    simpa [Option.isNone_iff_eq_none] using hx

theorem claim_C8_witness :
    entryC8open ∈ [entryC8closed, entryC8open] ∧ entryC8open.projectId = "p" ∧
      entryC8open.clockOutTime = none :=
  claim_C8.1 [entryC8closed, entryC8open] "p" entryC8open (by decide)

/-- C7: duration is clock-out minus clock-in when both instants are present
and 0 when clock-out is absent; consequently an open entry anywhere in the
collection contributes nothing to the daily, weekly, monthly or
selected-range completed-duration totals. -/
theorem claim_C7 (e : TimeEntry) :
    (∀ tin tout, e.clockInTime = some tin → e.clockOutTime = some tout →
        calculateEntryDuration e = tout - tin) ∧
    (e.clockOutTime = none → calculateEntryDuration e = 0) ∧
    (e.clockOutTime = none →
      ∀ (off : Int) (pre post : List TimeEntry) (d pid : String) (r : Int),
        calculateDailyTotalAllProjects (pre ++ e :: post) d =
          calculateDailyTotalAllProjects (pre ++ post) d ∧
        calculateWeeklyTotalsAllProjects off (pre ++ e :: post) =
          calculateWeeklyTotalsAllProjects off (pre ++ post) ∧
        calculateMonthlyTotalsAllProjects off (pre ++ e :: post) =
          calculateMonthlyTotalsAllProjects off (pre ++ post) ∧
        getSelectedWeekTotal off (pre ++ e :: post) pid r =
          getSelectedWeekTotal off (pre ++ post) pid r ∧
        getSelectedMonthTotal off (pre ++ e :: post) pid r =
          getSelectedMonthTotal off (pre ++ post) pid r) := by
  refine ⟨?_, calculateEntryDuration_of_open e, ?_⟩
  · intro tin tout h1 h2
    simp [calculateEntryDuration, h1, h2]
  · intro hout off pre post d pid r
    refine ⟨?_, ?_, ?_, ?_, ?_⟩
    · unfold calculateDailyTotalAllProjects
      exact filter_foldl_skip _ _ e
        (by intro a; rcases h1 : e.clockInTime with _ | tin <;> simp [h1, hout]) pre post 0
    · unfold calculateWeeklyTotalsAllProjects
      rw [foldl_append_skip _ e
        (by intro a; rcases h1 : e.clockInTime with _ | tin <;> simp [h1, hout]) pre post]
    · unfold calculateMonthlyTotalsAllProjects
      rw [foldl_append_skip _ e
        (by intro a; rcases h1 : e.clockInTime with _ | tin <;> simp [h1, hout]) pre post]
    · unfold getSelectedWeekTotal
      exact filter_foldl_skip _ _ e
        (by intro a; rcases h1 : e.clockInTime with _ | tin <;> simp [h1, hout]) pre post 0
    · unfold getSelectedMonthTotal
      exact filter_foldl_skip _ _ e
        (by intro a; rcases h1 : e.clockInTime with _ | tin <;> simp [h1, hout]) pre post 0

theorem claim_C7_witness :
    calculateEntryDuration entryC6a =
        (day20240115 * dayMs + 37800000) - (day20240115 * dayMs + 32400000) ∧
    calculateEntryDuration entryC8open = 0 ∧
    calculateDailyTotalAllProjects ([entryC6a] ++ entryC8open :: []) "01-15-2024" =
      calculateDailyTotalAllProjects ([entryC6a] ++ []) "01-15-2024" ∧
    getSelectedWeekTotal 0 ([entryC6a] ++ entryC8open :: []) "p" (day20240115 * dayMs) =
      getSelectedWeekTotal 0 ([entryC6a] ++ []) "p" (day20240115 * dayMs) :=
  ⟨(claim_C7 entryC6a).1 _ _ rfl rfl,
   (claim_C7 entryC8open).2.1 rfl,
   ((claim_C7 entryC8open).2.2 rfl 0 [entryC6a] [] "01-15-2024" "p" (day20240115 * dayMs)).1,
   ((claim_C7 entryC8open).2.2 rfl 0 [entryC6a] [] "01-15-2024" "p"
      (day20240115 * dayMs)).2.2.2.1⟩

theorem sumFold_eq : ∀ (l : List TimeEntry) (a : Int),
    l.foldl (fun sum e =>
      match e.clockInTime, e.clockOutTime with
      | some tin, some tout => sum + (tout - tin)
      | _, _ => sum) a
    = a + (l.map calculateEntryDuration).sum := by
  intro l
  induction l with
  | nil => intro a; simp
  | cons e t ih =>
      intro a
      rw [List.foldl_cons, ih]
      rcases h1 : e.clockInTime with _ | tin <;> rcases h2 : e.clockOutTime with _ | tout <;>
        simp [calculateEntryDuration, h1, h2, add_assoc]

/-- C10: the all-projects daily total for a date string sums the durations of
exactly those entries whose stored `date` field equals it (the stored field
decides membership, never the recomputed local date), as does the calendar
cell total; the project-detail grouping instead keys the same entry by the
date recomputed from its clock-in instant, so `entryC10` — stored date
"01-20-2024", clock-in local date 2024-01-15 — is counted under "01-20-2024"
by the stored-date totals and under "01-15-2024" by the recomputed
grouping. -/
theorem claim_C10 :
    (∀ (entries : List TimeEntry) (d : String),
        calculateDailyTotalAllProjects entries d =
          ((entries.filter (fun e => e.date == d)).map calculateEntryDuration).sum) ∧
    calculateDailyTotalAllProjects [entryC10] "01-20-2024" = 3600000 ∧
    calculateDailyTotalAllProjects [entryC10] "01-15-2024" = 0 ∧
    calendarDailyTotal [entryC10] "p" "01-20-2024" = 3600000 ∧
    entryDateKey 0 entryC10 = "01-15-2024" ∧
    dailyTotals 0 [entryC10] = [("01-15-2024", 3600000)] := by
  refine ⟨?_, by decide, by decide, by decide, by decide, by decide⟩
  intro entries d
  unfold calculateDailyTotalAllProjects
  rw [sumFold_eq, zero_add]

theorem map_bump_id (k : String) (e : TimeEntry)
    (l : List (String × List TimeEntry)) (h : k ∉ l.map Prod.fst) :
    l.map (fun p => if p.1 == k then (p.1, p.2 ++ [e]) else p) = l := by
  have hcong : ∀ p ∈ l, (if p.1 == k then (p.1, p.2 ++ [e]) else p) = id p := by
    intro p hp
    have hne : ¬ ((p.1 == k) = true) := by
      simp only [beq_iff_eq]
      intro hc
      exact h (List.mem_map.mpr ⟨p, hp, hc⟩)
    rw [if_neg hne]
    rfl
  rw [List.map_congr_left hcong, List.map_id]

theorem bumpBucket_sum (k : String) (e : TimeEntry) :
    ∀ acc : List (String × List TimeEntry), (acc.map Prod.fst).Nodup →
      k ∈ acc.map Prod.fst →
      bucketsDurSum (acc.map (fun p => if p.1 == k then (p.1, p.2 ++ [e]) else p)) =
        bucketsDurSum acc + calculateEntryDuration e := by
  intro acc
  induction acc with
  | nil => intro _ h; simp at h
  | cons hd tl ih =>
      intro hnd hk
      rw [List.map_cons, List.nodup_cons] at hnd
      obtain ⟨hd_nin, tl_nd⟩ := hnd
      by_cases hhd : hd.1 = k
      · have hbeq : (hd.1 == k) = true := by simp [hhd]
        have htl : tl.map (fun p => if p.1 == k then (p.1, p.2 ++ [e]) else p) = tl :=
          map_bump_id k e tl (hhd ▸ hd_nin)
        simp only [List.map_cons, hbeq, if_true, htl]
        simp [bucketsDurSum]
        ring
      · have hbeq : (hd.1 == k) = false := by simp [hhd]
        have hk' : k ∈ tl.map Prod.fst := by
          rw [List.map_cons] at hk
          rcases List.mem_cons.mp hk with h | h
          · exact absurd h.symm hhd
          · exact h
        simp only [List.map_cons, hbeq, Bool.false_eq_true, if_false]
        simp only [bucketsDurSum, List.map_cons, List.sum_cons] at ih ⊢
        rw [ih tl_nd hk']
        ring

theorem pushGrouped_nodup (k : String) (e : TimeEntry)
    (acc : List (String × List TimeEntry)) (h : (acc.map Prod.fst).Nodup) :
    ((pushGrouped k e acc).map Prod.fst).Nodup := by
  unfold pushGrouped
  by_cases hany : acc.any (fun p => p.1 == k) = true
  · rw [if_pos hany, List.map_map]
    have : acc.map (Prod.fst ∘ fun p => if p.1 == k then (p.1, p.2 ++ [e]) else p) =
        acc.map Prod.fst := by
      apply List.map_congr_left
      intro p _
      by_cases hp : p.1 = k <;> simp [hp]
    rw [this]
    exact h
  · rw [if_neg hany, List.map_append]
    rw [List.nodup_append]
    refine ⟨h, by simp, ?_⟩
    intro x hx hxk
    have hxk' : x = k := by simpa using hxk
    rcases List.mem_map.mp hx with ⟨p, hp, hfst⟩
    apply hany
    rw [List.any_eq_true]
    exact ⟨p, hp, by simp [hfst, hxk']⟩

theorem pushGrouped_sum (k : String) (e : TimeEntry)
    (acc : List (String × List TimeEntry)) (h : (acc.map Prod.fst).Nodup) :
    bucketsDurSum (pushGrouped k e acc) = bucketsDurSum acc + calculateEntryDuration e := by
  unfold pushGrouped
  by_cases hany : acc.any (fun p => p.1 == k) = true
  · rw [if_pos hany]
    apply bumpBucket_sum k e acc h
    rcases List.any_eq_true.mp hany with ⟨p, hp, hpk⟩
    exact List.mem_map.mpr ⟨p, hp, by simpa using hpk⟩
  · rw [if_neg hany]
    simp [bucketsDurSum]

theorem grouped_core (off : Int) :
    ∀ (entries : List TimeEntry) (acc : List (String × List TimeEntry)),
      (acc.map Prod.fst).Nodup →
      (((entries.foldl (fun acc e => pushGrouped (entryDateKey off e) e acc) acc).map
          Prod.fst).Nodup ∧
       bucketsDurSum (entries.foldl (fun acc e => pushGrouped (entryDateKey off e) e acc) acc) =
         bucketsDurSum acc + (entries.map calculateEntryDuration).sum) := by
  intro entries
  induction entries with
  | nil => intro acc h; exact ⟨h, by simp⟩
  | cons e t ih =>
      intro acc h
      rw [List.foldl_cons]
      obtain ⟨h1, h2⟩ :=
        ih (pushGrouped (entryDateKey off e) e acc) (pushGrouped_nodup _ _ _ h)
      refine ⟨h1, ?_⟩
      rw [h2, pushGrouped_sum _ _ _ h]
      simp [add_assoc]

theorem sum_dur_filter_isSome : ∀ l : List TimeEntry,
    ((l.filter (fun e => e.clockOutTime.isSome)).map calculateEntryDuration).sum =
      (l.map calculateEntryDuration).sum := by
  intro l
  induction l with
  | nil => rfl
  | cons e t ih =>
      rcases h : e.clockOutTime with _ | tout
      · have h0 : calculateEntryDuration e = 0 := calculateEntryDuration_of_open e h
        simp [List.filter_cons, h, ih, h0]
      · simp [List.filter_cons, h, ih]

/-- C2: for every non-empty entry set, the per-date daily totals partition the
completed durations — the sum of the daily totals over all (distinct) date
keys equals the sum of durations over the entries with non-null clock-out. -/
theorem claim_C2 (off : Int) (entries : List TimeEntry) (_hne : entries ≠ []) :
    ((dailyTotals off entries).map Prod.snd).sum =
      ((entries.filter (fun e => e.clockOutTime.isSome)).map calculateEntryDuration).sum ∧
    ((dailyTotals off entries).map Prod.fst).Nodup := by
  obtain ⟨hnodup, hsum⟩ := grouped_core off entries [] (by simp)
  have hperm := List.perm_insertionSort
    (fun a b => parseLocalDateMs b.1 ≤ parseLocalDateMs a.1)
    ((groupedEntries off entries).map
      (fun p => (p.1, (p.2.map calculateEntryDuration).sum)))
  constructor
  · calc ((dailyTotals off entries).map Prod.snd).sum
        = (((groupedEntries off entries).map
            (fun p => (p.1, (p.2.map calculateEntryDuration).sum))).map Prod.snd).sum :=
          (hperm.map Prod.snd).sum_eq
      _ = bucketsDurSum (groupedEntries off entries) := by
          rw [List.map_map]
          unfold bucketsDurSum
          exact congrArg List.sum (List.map_congr_left (fun p _ => rfl))
      _ = (entries.map calculateEntryDuration).sum := by
          simpa [bucketsDurSum, groupedEntries] using hsum
      _ = ((entries.filter (fun e => e.clockOutTime.isSome)).map
            calculateEntryDuration).sum := (sum_dur_filter_isSome entries).symm
  · unfold dailyTotals
    refine ((hperm.map Prod.fst).nodup_iff).mpr ?_
    rw [List.map_map]
    have : (groupedEntries off entries).map
        (Prod.fst ∘ fun p => (p.1, (p.2.map calculateEntryDuration).sum)) =
        (groupedEntries off entries).map Prod.fst :=
      List.map_congr_left (fun p _ => rfl)
    rw [this]
    simpa [groupedEntries] using hnodup

theorem claim_C2_witness :
    (([entryC6a, entryC6b, entryC8open] : List TimeEntry) ≠ []) ∧
    ((dailyTotals 0 [entryC6a, entryC6b, entryC8open]).map Prod.snd).sum =
      (([entryC6a, entryC6b, entryC8open].filter (fun e => e.clockOutTime.isSome)).map
        calculateEntryDuration).sum :=
  ⟨by decide, (claim_C2 0 [entryC6a, entryC6b, entryC8open] (by decide)).1⟩

theorem weekFold_eq (s : Int) : ∀ (l : List TimeEntry) (a : Int),
    l.foldl (fun sum e =>
      match e.clockInTime, e.clockOutTime with
      | some tin, some tout =>
          if s ≤ tin ∧ tin < s + 7 * dayMs then sum + (tout - tin) else sum
      | _, _ => sum) a
    = a + (l.map (fun e =>
        if (match e.clockInTime with
            | some t => decide (s ≤ t ∧ t < s + 7 * dayMs)
            | none => false) then calculateEntryDuration e else 0)).sum := by
  intro l
  induction l with
  | nil => intro a; simp
  | cons e t ih =>
      intro a
      rw [List.foldl_cons, ih]
      rcases h1 : e.clockInTime with _ | tin
      · simp [h1]
      · rcases h2 : e.clockOutTime with _ | tout
        · simp [calculateEntryDuration, h1, h2]
        · by_cases hw : s ≤ tin ∧ tin < s + 7 * dayMs
          · simp [calculateEntryDuration, h1, h2, hw, add_assoc]
          · simp [calculateEntryDuration, h1, h2, hw]

/-- C9: the selected-week total equals the sum of durations of the project's
entries whose clock-in instant lies in the half-open window
`[Monday 00:00 local of the reference's week, that Monday + 7 days)` — the
window start is a local Monday midnight (day-of-week 1, zero local
time-of-day) at or before the reference, the lower bound inclusive and the
upper bound exactly seven days later, exclusive. -/
theorem claim_C9 (off : Int) (entries : List TimeEntry) (pid : String) (r : Int) :
    getSelectedWeekTotal off entries pid r =
      specWeekWindowTotal entries pid (mondayStartUtc off r) ∧
    jsDow (mondayStartUtc off r + off) = 1 ∧
    (mondayStartUtc off r + off) % dayMs = 0 ∧
    mondayStartUtc off r + off ≤ r + off ∧
    r + off < mondayStartUtc off r + off + 7 * dayMs := by
  refine ⟨?_, ?_, ?_, ?_, ?_⟩
  · unfold getSelectedWeekTotal specWeekWindowTotal
    rw [weekFold_eq (mondayStartUtc off r), zero_add]
    rw [← sum_map_filter_if
      (fun e => (match e.clockInTime with
        | some t => decide (mondayStartUtc off r ≤ t ∧ t < mondayStartUtc off r + 7 * dayMs)
        | none => false)) calculateEntryDuration (entries.filter (fun e => e.projectId == pid))]
    rw [List.filter_filter]
    refine congrArg _ (congrArg _ ?_)
    apply List.filter_congr
    intro e _
    exact Bool.and_comm _ _
  · simp only [mondayStartUtc, jsDow, dayMs]
    omega
  · simp only [mondayStartUtc, jsDow, dayMs]
    omega
  · simp only [mondayStartUtc, jsDow, dayMs]
    omega
  · simp only [mondayStartUtc, jsDow, dayMs]
    omega
